import Mathlib

/-!
Shallow embedding of `bench_fastq/utils.py`.

The program parses the terminal transcript of a shell benchmarking script.
Strings are embedded as `List Char`; Python integers as `Int`; raised
exceptions become `Except PyErr`.  Every Python float occurring in the
program is the value of a short decimal literal read from the transcript, so
floats are idealised as exact decimal rationals `num / 10 ^ den10` (structure
`Dec`), with `Dec.val : Dec → ℚ` giving the rational value used in
specification statements.  Each definition mirrors one Python function or
expression of the source file, keeping the Python name where Lean allows it.
-/

namespace BenchFastq

set_option maxRecDepth 40000

instance {ε α : Type} [DecidableEq ε] [DecidableEq α] : DecidableEq (Except ε α) :=
  fun a b =>
    match a, b with
    | Except.ok x, Except.ok y =>
      if h : x = y then isTrue (by rw [h]) else isFalse (by intro hc; cases hc; exact h rfl)
    | Except.error x, Except.error y =>
      if h : x = y then isTrue (by rw [h]) else isFalse (by intro hc; cases hc; exact h rfl)
    | Except.ok _, Except.error _ => isFalse (by intro hc; cases hc)
    | Except.error _, Except.ok _ => isFalse (by intro hc; cases hc)

/-- The six Python whitespace characters recognised by `str.strip()` /
`str.split()` with no argument. -/
def pyIsSpace (c : Char) : Bool :=
  c = ' ' || c = '\t' || c = '\n' || c = '\r' || c = '\x0b' || c = '\x0c'

/-- Python `str.split(sep)` for a one-character separator: splits at every
occurrence, keeping empty fields, so the result always has at least one
field. -/
def pySplitChar (sep : Char) : List Char → List (List Char)
  | [] => [[]]
  | c :: rest =>
    if c = sep then [] :: pySplitChar sep rest
    else
      match pySplitChar sep rest with
      | [] => [[c]]
      | f :: t => (c :: f) :: t

/-- Helper for `pySplitWs`: accumulates the current token (reversed). -/
def splitWsAux : List Char → List Char → List (List Char)
  | [], acc => if acc.isEmpty then [] else [acc.reverse]
  | c :: rest, acc =>
    if pyIsSpace c then
      if acc.isEmpty then splitWsAux rest []
      else acc.reverse :: splitWsAux rest []
    else splitWsAux rest (c :: acc)

/-- Python `str.split()` with no argument: split on runs of whitespace,
discarding empty fields. -/
def pySplitWs (s : List Char) : List (List Char) := splitWsAux s []

/-- Python `str.lstrip(chars)`: drop leading characters belonging to the set. -/
def pyLstrip (cs : List Char) (s : List Char) : List Char :=
  s.dropWhile (fun c => cs.contains c)

/-- Python `str.rstrip(chars)`: drop trailing characters belonging to the set. -/
def pyRstrip (cs : List Char) (s : List Char) : List Char :=
  (s.reverse.dropWhile (fun c => cs.contains c)).reverse

/-- Python `str.strip(chars)`: drop the set's characters from both ends. -/
def pyStripChars (cs : List Char) (s : List Char) : List Char :=
  pyRstrip cs (pyLstrip cs s)

/-- Python `str.rstrip()` with no argument: drop trailing whitespace. -/
def pyRstripWs (s : List Char) : List Char :=
  (s.reverse.dropWhile pyIsSpace).reverse

/-- Python `str.strip()` with no argument: drop whitespace from both ends. -/
def pyStripWs (s : List Char) : List Char :=
  pyRstripWs (s.dropWhile pyIsSpace)

/-- Python `pat in s` on strings: substring containment. -/
def pyContains (pat : List Char) : List Char → Bool
  | [] => pat.isEmpty
  | c :: rest => pat.isPrefixOf (c :: rest) || pyContains pat rest

/-- Value of a list of decimal digits. -/
def digitsToNat (ds : List Char) : Nat :=
  ds.foldl (fun a c => 10 * a + (c.toNat - 48)) 0

/-- The Python exception classes raised (or raisable) by the source file. -/
inductive PyErr where
  | ioError
  | assertionError
  | valueError
  | keyError
  | typeError
  | nameError
  | indexError
  deriving DecidableEq, Repr

/-- Python `int(str)`: optional surrounding whitespace, optional sign, decimal
digits; anything else raises `ValueError`.  (Underscores and non-decimal bases
never occur in the transcripts and are not modelled.) -/
def pyInt (s : List Char) : Except PyErr Int :=
  match pyStripWs s with
  | '-' :: ds =>
    if !ds.isEmpty && ds.all Char.isDigit then Except.ok (-(digitsToNat ds : Int))
    else Except.error PyErr.valueError
  | '+' :: ds =>
    if !ds.isEmpty && ds.all Char.isDigit then Except.ok (digitsToNat ds : Int)
    else Except.error PyErr.valueError
  | ds =>
    if !ds.isEmpty && ds.all Char.isDigit then Except.ok (digitsToNat ds : Int)
    else Except.error PyErr.valueError

/-- Exact decimal rational `num / 10 ^ den10` in normalised form (no
trailing decimal zero in the fraction).  Every IEEE-754 binary64 value is a
dyadic rational `m / 2 ^ j = m * 5 ^ j / 10 ^ j`, so this type represents
Python float values exactly, and equality of normalised `Dec`s is equality
of the float values. -/
structure Dec where
  num : Int
  den10 : Nat
  deriving DecidableEq, Repr

/-- The rational value of a `Dec`. -/
def Dec.val (d : Dec) : ℚ := (d.num : ℚ) / (10 : ℚ) ^ d.den10

/-- Bit length of a natural number, fuel-driven so that the kernel can
evaluate it (the fuel bounds the representable bit length and covers every
magnitude a transcript can produce). -/
def bitsAux : Nat → Nat → Nat
  | 0, _ => 0
  | fuel + 1, n => if n = 0 then 0 else bitsAux fuel (n / 2) + 1

def bitlen (n : Nat) : Nat := bitsAux 4096 n

/-- Strip trailing decimal zeros: normalise `n / 10 ^ e`. -/
def decNormAux : Nat → Int → Nat → Dec
  | 0, n, e => ⟨n, e⟩
  | fuel + 1, n, e =>
    if e = 0 then ⟨n, 0⟩
    else if n % 10 = 0 then decNormAux fuel (n / 10) (e - 1)
    else ⟨n, e⟩

def decNorm (n : Int) (e : Nat) : Dec := decNormAux e n e

/-- Core of IEEE-754 binary64 rounding: round `n / d` (with `n, d > 0`) to
a 53-bit mantissa, round-to-nearest with ties to even; the result is the
pair `(m, e2)` of value `m * 2 ^ e2`.  The scaling keeps at least 59
quotient bits, so the guard position always exists.  (The exponent is
unbounded here: overflow to infinity and subnormal rounding cannot be
reached by the magnitudes occurring in the transcripts and are not
modelled.) -/
def roundB64Pos (n d : Nat) : Nat × Int :=
  let sh : Int := 60 + (bitlen d : Int) - (bitlen n : Int)
  let N := if 0 ≤ sh then n * 2 ^ sh.toNat else n
  let D := if 0 ≤ sh then d else d * 2 ^ (-sh).toNat
  let Q := N / D
  let R := N % D
  let drop := bitlen Q - 53
  let m := Q / 2 ^ drop
  let rlow := Q % 2 ^ drop
  let half := 2 ^ drop / 2
  let m' :=
    if half ≠ 0 ∧ (half < rlow ∨ (rlow = half ∧ (R ≠ 0 ∨ m % 2 = 1))) then m + 1 else m
  (m', (drop : Int) - sh)

/-- The exact decimal value of the dyadic `m * 2 ^ e2`
(`m / 2 ^ j = m * 5 ^ j / 10 ^ j`), normalised. -/
def dyadicToDec (m : Int) (e2 : Int) : Dec :=
  if 0 ≤ e2 then ⟨m * 2 ^ e2.toNat, 0⟩
  else decNorm (m * 5 ^ (-e2).toNat) (-e2).toNat

/-- IEEE-754 binary64 rounding (round to nearest, ties to even) of the
rational `num / den`, returned as the exact decimal value of the resulting
double. -/
def roundB64 (num den : Int) : Dec :=
  if num = 0 ∨ den = 0 then ⟨0, 0⟩
  else
    let p := roundB64Pos num.natAbs den.natAbs
    let mz : Int := if (num < 0) = (den < 0) then (p.1 : Int) else -(p.1 : Int)
    dyadicToDec mz p.2

/-- Python `int(f)` on a float: truncation toward zero. -/
def Dec.trunc (d : Dec) : Int := d.num.tdiv ((10 : Int) ^ d.den10)

/-- IEEE binary64 subtraction `f - n` of a float and an integer (the
integer converts to a double exactly at transcript magnitudes): the exact
difference, rounded to binary64. -/
def Dec.fsubInt (d : Dec) (n : Int) : Dec :=
  roundB64 (d.num - n * (10 : Int) ^ d.den10) ((10 : Int) ^ d.den10)

/-- IEEE binary64 division `a / b`: the exact quotient, rounded to
binary64. -/
def Dec.fdiv (a b : Dec) : Dec :=
  roundB64 (a.num * (10 : Int) ^ b.den10) (b.num * (10 : Int) ^ a.den10)

/-- The binary64 double denoted by the source literal `0.001` (slightly
above `1 / 1000`). -/
def d001 : Dec := roundB64 1 1000

/-- Unsigned decimal literal with optional fractional part (`DD`, `DD.`,
`DD.DD` or `.DD`), rounded to the IEEE-754 binary64 double that CPython's
`float()` produces, represented by its exact decimal value. -/
def pyFloatUnsigned (t : List Char) : Option Dec :=
  let ip := t.takeWhile Char.isDigit
  let rest := t.dropWhile Char.isDigit
  match rest with
  | [] => if ip.isEmpty then none else some (roundB64 (digitsToNat ip : Int) 1)
  | '.' :: fp =>
    if fp.all Char.isDigit && !(ip.isEmpty && fp.isEmpty) then
      some (roundB64
        ((digitsToNat ip : Int) * (10 : Int) ^ fp.length + (digitsToNat fp : Int))
        ((10 : Int) ^ fp.length))
    else none
  | _ => none

/-- Python `float(str)` restricted to the decimal literals that occur in the
transcripts (optional whitespace, optional sign, digits with an optional
fractional part), rounded to the IEEE-754 binary64 double exactly as
CPython's `float()` does.  Anything else raises `ValueError`. -/
def pyFloat (s : List Char) : Except PyErr Dec :=
  match pyStripWs s with
  | '-' :: t =>
    match pyFloatUnsigned t with
    | some q => Except.ok ⟨-q.num, q.den10⟩
    | none => Except.error PyErr.valueError
  | '+' :: t =>
    match pyFloatUnsigned t with
    | some q => Except.ok q
    | none => Except.error PyErr.valueError
  | t =>
    match pyFloatUnsigned t with
    | some q => Except.ok q
    | none => Except.error PyErr.valueError

/-- `datetime.timedelta`, represented by its total number of microseconds.
Python normalises a timedelta to (days, seconds, microseconds), so equality
of timedeltas is exactly equality of total microseconds. -/
structure Timedelta where
  micro : Int
  deriving DecidableEq, Repr

/-- `datetime.timedelta(hours=.., minutes=.., seconds=.., milliseconds=..)`
with integer arguments. -/
def Timedelta.ofHMSms (hours minutes seconds milliseconds : Int) : Timedelta :=
  ⟨((hours * 3600 + minutes * 60 + seconds) * 1000 + milliseconds) * 1000⟩

/-- `timedelta.total_seconds()`, as an exact rational. -/
def Timedelta.total_seconds (t : Timedelta) : ℚ := (t.micro : ℚ) / 1000000

/-- `timedelta.total_seconds()` as an exact decimal (`micro / 10 ^ 6`); this
is the float value stored by `recursive_timedelta_to_totsec`. -/
def Timedelta.totsecDec (t : Timedelta) : Dec := ⟨t.micro, 6⟩

/-- `parse_elapsed` from `bench_fastq/utils.py` (lines 15–47): split the
elapsed-time field on `:`; two fields mean `MM:SS` (hours become `'0'`),
three mean `HH:MM:SS`; any other count raises `AssertionError`.  Each field
goes through `int(float(..))`, and the milliseconds are
`int((float(seconds) - seconds_int) / 0.001)`, with the subtraction and the
division by the double `0.001` performed in correctly-rounded binary64. -/
def parse_elapsed (elapsed : List Char) : Except PyErr Timedelta := do
  let elapsed_arr := pySplitChar ':' elapsed
  let (hours, minutes, seconds) ←
    match elapsed_arr with
    | [m, s] => Except.ok (['0'], m, s)
    | [h, m, s] => Except.ok (h, m, s)
    | _ => Except.error PyErr.assertionError
  let hoursF ← pyFloat hours
  let minutesF ← pyFloat minutes
  let secondsF ← pyFloat seconds
  let hours_int := hoursF.trunc
  let minutes_int := minutesF.trunc
  let seconds_int := secondsF.trunc
  let milliseconds_int := ((secondsF.fsubInt seconds_int).fdiv d001).trunc
  Except.ok (Timedelta.ofHMSms hours_int minutes_int seconds_int milliseconds_int)

example : parse_elapsed ("1:23.456".toList) = Except.ok ⟨83455000⟩ := by decide

example : parse_elapsed ("2:01:03".toList) = Except.ok ⟨7263000000⟩ := by decide

example : parse_elapsed ("1:2:3:4".toList) = Except.error PyErr.assertionError := by decide

/-- A Python dict key of the parsed structure: a string (filename, method,
quantity names) or an integer (iteration number). -/
inductive PyKey where
  | s (s : List Char)
  | i (n : Int)
  deriving DecidableEq, Repr

mutual
/-- A Python value of the parsed structure: a timedelta, an int, a float
(exact decimal), the float `nan`, a string, or a nested dict. -/
inductive PyVal where
  | td (t : Timedelta)
  | int (n : Int)
  | float (d : Dec)
  | nan
  | str (s : List Char)
  | dict (entries : PyEntries)
  deriving DecidableEq, Repr

/-- The entries of a Python dict, in insertion order (keys are unique in
every dict the program builds). -/
inductive PyEntries where
  | nil
  | cons (k : PyKey) (v : PyVal) (rest : PyEntries)
  deriving DecidableEq, Repr
end

/-- The keys of a dict, in order. -/
def dKeys : PyEntries → List PyKey
  | PyEntries.nil => []
  | PyEntries.cons k _ rest => k :: dKeys rest

/-- Dict lookup `d[k]`. -/
def dGet : PyEntries → PyKey → Option PyVal
  | PyEntries.nil, _ => none
  | PyEntries.cons k' v rest, k => if k' = k then some v else dGet rest k

/-- Dict assignment `d[k] = v`: replace in place when the key exists (Python
keeps the original insertion position), else append the new binding. -/
def dSet : PyEntries → PyKey → PyVal → PyEntries
  | PyEntries.nil, k, v => PyEntries.cons k v PyEntries.nil
  | PyEntries.cons k' v' rest, k, v =>
    if k' = k then PyEntries.cons k' v rest
    else PyEntries.cons k' v' (dSet rest k v)

/-- Evaluate `d[k1][k2]...`: a missing key raises `KeyError`, indexing a
non-dict raises `TypeError`; the empty path denotes `d` itself. -/
def getPath (d : PyEntries) : List PyKey → Except PyErr PyVal
  | [] => Except.ok (PyVal.dict d)
  | k :: ks =>
    match dGet d k with
    | none => Except.error PyErr.keyError
    | some v =>
      match ks with
      | [] => Except.ok v
      | _ :: _ =>
        match v with
        | PyVal.dict d' => getPath d' ks
        | _ => Except.error PyErr.typeError

/-- Execute `d[p1]...[pn][k] = v`: navigate the prefix path like `getPath`,
then bind the final key. -/
def setPath (d : PyEntries) : List PyKey → PyKey → PyVal → Except PyErr PyEntries
  | [], k, v => Except.ok (dSet d k v)
  | p :: ps, k, v =>
    match dGet d p with
    | none => Except.error PyErr.keyError
    | some (PyVal.dict d') =>
      match setPath d' ps k v with
      | Except.error e => Except.error e
      | Except.ok d'' => Except.ok (dSet d p (PyVal.dict d''))
    | some _ => Except.error PyErr.typeError

mutual
/-- The per-value conversion inside `recursive_timedelta_to_totsec`'s loop
body (the `if isinstance(..) / elif isinstance(..) / else` on `dobj[key]`):
a timedelta becomes its total seconds, a nested dict is converted
recursively, anything else is copied unchanged. -/
def convElem : PyVal → PyVal
  | PyVal.td t => PyVal.float t.totsecDec
  | PyVal.dict d => PyVal.dict (recursive_timedelta_to_totsec d)
  | v => v

/-- `recursive_timedelta_to_totsec` from `bench_fastq/utils.py` (lines
50–76): build a new dict binding every key of `dobj`, in order, to the
converted value. -/
def recursive_timedelta_to_totsec : PyEntries → PyEntries
  | PyEntries.nil => PyEntries.nil
  | PyEntries.cons k v rest =>
    PyEntries.cons k (convElem v) (recursive_timedelta_to_totsec rest)
end

/-- `os.path.basename` (posix): the part after the last `/`. -/
def os_basename (p : List Char) : List Char :=
  (p.reverse.takeWhile (fun c => c ≠ '/')).reverse

/-- Split a list before its last `.`: `some (root, ext)` with
`root ++ ext = b` and `ext` starting at the last dot, when a dot exists. -/
def splitLastDot : List Char → Option (List Char × List Char)
  | [] => none
  | c :: rest =>
    match splitLastDot rest with
    | some (r, e) => some (c :: r, e)
    | none => if c = '.' then some ([], '.' :: rest) else none

/-- `os.path.splitext` (posix): split off the extension at the last dot of
the basename, unless every character of the basename before that dot is
itself a dot (so dotfiles like `.bashrc` have no extension). -/
def os_splitext (p : List Char) : List Char × List Char :=
  let base := os_basename p
  let dir := p.take (p.length - base.length)
  match splitLastDot base with
  | none => (p, [])
  | some (r, e) => if r.all (fun c => c = '.') then (p, []) else (dir ++ r, e)

/-- Modelled: `os.path.abspath` — normalisation of the path against the
working directory is treated as the identity; no claim depends on it. -/
def os_abspath (p : List Char) : List Char := p

example : os_splitext ("/data/test1.fastq".toList) =
    ("/data/test1".toList, ".fastq".toList) := by decide

example : os_splitext ("/home/u/.bashrc".toList) = ("/home/u/.bashrc".toList, []) := by decide

/-- The mutable local state of `parse_compress`'s line loop: the result dict,
the three name variables (`none` while still unbound — Python raises
`NameError` on use), the skip counter, and the seven catch flags
(initialised to Python `None`, which is falsy). -/
structure PState where
  parsed : PyEntries
  fname : Option (List Char)
  iteration : Option Int
  method : Option (List Char)
  skip_lines : Option Int
  catch_initial_size : Option Bool
  catch_comp_cmd : Option Bool
  catch_comp_time : Option Bool
  catch_comp_size : Option Bool
  catch_decomp_cmd : Option Bool
  catch_decomp_time : Option Bool
  catch_decomp_size : Option Bool
  deriving DecidableEq, Repr

/-- The state at the top of the loop (lines 106–114 of the source). -/
def PState.init : PState :=
  ⟨PyEntries.nil, none, none, none, none, none, none, none, none, none, none, none⟩

/-- Python truthiness of a flag whose value is `None`, `True` or `False`. -/
def truthy : Option Bool → Bool
  | none => false
  | some b => b

/-- Python-2 `skip_lines >= 0` where `skip_lines` may be `None` (in CPython 2
`None` compares less than every integer, so `None >= 0` is `False`). -/
def geZero : Option Int → Bool
  | none => false
  | some n => 0 ≤ n

/-- Python-2 `skip_lines > 0` with a possibly-`None` operand. -/
def gtZero : Option Int → Bool
  | none => false
  | some n => 0 < n

/-- Python `skip_lines == 0` with a possibly-`None` operand (`None == 0` is
`False`). -/
def eqZero : Option Int → Bool
  | none => false
  | some n => n = 0

/-- Read a local variable, raising `NameError` when it is still unbound. -/
def getVar {α : Type} : Option α → Except PyErr α
  | none => Except.error PyErr.nameError
  | some a => Except.ok a

/-- Python `xs[i]` on a list, raising `IndexError` when out of range. -/
def listAt {α : Type} (xs : List α) (i : Nat) : Except PyErr α :=
  match xs.get? i with
  | none => Except.error PyErr.indexError
  | some a => Except.ok a

/-- One warning printed to stderr on a pre/post size mismatch: the values
interpolated into the formatted message of lines 208–215. -/
structure Warning where
  fname : List Char
  method : List Char
  init_size : PyVal
  finl_size : PyVal
  deriving DecidableEq, Repr

def sBegin : List Char := "Begin processing:".toList
def sIntial : List Char := "Intial .fastq size:".toList
def sIteration : List Char := "Iteration:".toList
def sTesting : List Char := "Testing".toList
def sSudoTime : List Char := "+ sudo time".toList
def sDuBytes : List Char := "+ du --bytes".toList
def sElapsed : List Char := "elapsed".toList
def sCPU : List Char := "CPU".toList
def sPctCPU : List Char := "%CPU".toList
def kSize : PyKey := PyKey.s ("size_bytes".toList)
def kCompress : PyKey := PyKey.s ("compress".toList)
def kDecompress : PyKey := PyKey.s ("decompress".toList)
def kCommand : PyKey := PyKey.s ("command".toList)
def kElapsedTime : PyKey := PyKey.s ("elapsed_time".toList)
def kCPUpct : PyKey := PyKey.s ("CPU_percent".toList)

/-- The elapsed/CPU handler shared syntactically by the compress branch
(lines 156–168) and the decompress branch (lines 186–198) of the source;
`proc` is `'compress'` respectively `'decompress'`. -/
def handleTimeLine (st : PState) (line : List Char) (proc : PyKey) :
    Except PyErr (PState × Bool) := do
  let line_arr := pySplitWs line
  let a2 ← listAt line_arr 2
  let elapsed ← parse_elapsed (pyStripChars sElapsed a2)
  let fn ← getVar st.fname
  let it ← getVar st.iteration
  let me ← getVar st.method
  let p1 ← setPath st.parsed [PyKey.s fn, PyKey.i it, PyKey.s me, proc]
    kElapsedTime (PyVal.td elapsed)
  let a3 ← listAt line_arr 3
  let pct_cpu := pyStripChars sPctCPU a3
  let pct ←
    if pct_cpu = ['?'] then Except.ok PyVal.nan
    else do
      let q ← pyFloat pct_cpu
      Except.ok (PyVal.float q)
  let p2 ← setPath p1 [PyKey.s fn, PyKey.i it, PyKey.s me, proc] kCPUpct pct
  Except.ok ({ st with parsed := p2 }, true)

/-- One iteration of the line loop of `parse_compress` (lines 116–218 of the
source): the `if/elif` ladder over the rstripped line, updating the state
and possibly emitting one stderr warning. -/
def parse_line (st : PState) (rawline : List Char) : Except PyErr (PState × List Warning) := do
  let line := pyRstripWs rawline
  if sBegin.isPrefixOf line then do
    let line_arr := pySplitChar ':' line
    let a1 ← listAt line_arr 1
    let fname := (os_splitext (os_basename a1)).1
    Except.ok ({ st with parsed := dSet st.parsed (PyKey.s fname) (PyVal.dict PyEntries.nil),
                         fname := some fname }, [])
  else if sIntial.isPrefixOf line then
    Except.ok ({ st with catch_initial_size := some true, skip_lines := some 1 }, [])
  else if truthy st.catch_initial_size && geZero st.skip_lines then
    if gtZero st.skip_lines then
      Except.ok ({ st with skip_lines := st.skip_lines.map (fun n => n - 1) }, [])
    else if eqZero st.skip_lines then do
      let line_arr := pySplitWs line
      let a0 ← listAt line_arr 0
      let n ← pyInt a0
      let fn ← getVar st.fname
      let parsed' ← setPath st.parsed [PyKey.s fn] kSize (PyVal.int n)
      let a1 ← listAt line_arr 1
      if os_basename a1 = fn then
        Except.ok ({ st with parsed := parsed',
                             catch_initial_size := some false, skip_lines := none }, [])
      else Except.error PyErr.assertionError
    else Except.ok (st, [])
  else if sIteration.isPrefixOf line then do
    let line_arr := pySplitChar ':' line
    let a1 ← listAt line_arr 1
    let it ← pyInt a1
    let fn ← getVar st.fname
    let parsed' ← setPath st.parsed [PyKey.s fn] (PyKey.i it) (PyVal.dict PyEntries.nil)
    Except.ok ({ st with parsed := parsed', iteration := some it }, [])
  else if sTesting.isPrefixOf line then do
    let line_arr := pySplitWs (pyRstrip [':'] line)
    let me ← listAt line_arr 1
    let fn ← getVar st.fname
    let it ← getVar st.iteration
    let parsed' ← setPath st.parsed [PyKey.s fn, PyKey.i it] (PyKey.s me) (PyVal.dict PyEntries.nil)
    Except.ok ({ st with parsed := parsed', method := some me, catch_comp_cmd := some true }, [])
  else if truthy st.catch_comp_cmd && sSudoTime.isPrefixOf line then do
    let fn ← getVar st.fname
    let it ← getVar st.iteration
    let me ← getVar st.method
    let p1 ← setPath st.parsed [PyKey.s fn, PyKey.i it, PyKey.s me]
      kCompress (PyVal.dict PyEntries.nil)
    let p2 ← setPath p1 [PyKey.s fn, PyKey.i it, PyKey.s me, kCompress]
      kCommand (PyVal.str line)
    Except.ok ({ st with parsed := p2,
                         catch_comp_cmd := some false, catch_comp_time := some true }, [])
  else if truthy st.catch_comp_time && pyContains sElapsed line && pyContains sCPU line then do
    let (st', _) ← handleTimeLine st line kCompress
    Except.ok ({ st' with catch_comp_time := some false, catch_comp_size := some true }, [])
  else if truthy st.catch_comp_size then
    if sDuBytes.isPrefixOf line then
      Except.ok ({ st with skip_lines := some 0 }, [])
    else if eqZero st.skip_lines then do
      let line_arr := pySplitWs line
      let a0 ← listAt line_arr 0
      let n ← pyInt a0
      let fn ← getVar st.fname
      let it ← getVar st.iteration
      let me ← getVar st.method
      let p1 ← setPath st.parsed [PyKey.s fn, PyKey.i it, PyKey.s me, kCompress]
        kSize (PyVal.int n)
      Except.ok ({ st with parsed := p1, catch_comp_size := some false,
                           skip_lines := none, catch_decomp_cmd := some true }, [])
    else Except.ok (st, [])
  else if truthy st.catch_decomp_cmd && sSudoTime.isPrefixOf line then do
    let fn ← getVar st.fname
    let it ← getVar st.iteration
    let me ← getVar st.method
    let p1 ← setPath st.parsed [PyKey.s fn, PyKey.i it, PyKey.s me]
      kDecompress (PyVal.dict PyEntries.nil)
    let p2 ← setPath p1 [PyKey.s fn, PyKey.i it, PyKey.s me, kDecompress]
      kCommand (PyVal.str line)
    Except.ok ({ st with parsed := p2,
                         catch_decomp_cmd := some false, catch_decomp_time := some true }, [])
  else if truthy st.catch_decomp_time && pyContains sElapsed line && pyContains sCPU line then do
    let (st', _) ← handleTimeLine st line kDecompress
    Except.ok ({ st' with catch_decomp_time := some false, catch_decomp_size := some true }, [])
  else if truthy st.catch_decomp_size then
    if sDuBytes.isPrefixOf line then
      Except.ok ({ st with skip_lines := some 0 }, [])
    else if eqZero st.skip_lines then do
      let line_arr := pySplitWs line
      let a0 ← listAt line_arr 0
      let n ← pyInt a0
      let fn ← getVar st.fname
      let it ← getVar st.iteration
      let me ← getVar st.method
      let p1 ← setPath st.parsed [PyKey.s fn, PyKey.i it, PyKey.s me, kDecompress]
        kSize (PyVal.int n)
      let vInit ← getPath p1 [PyKey.s fn, kSize]
      let vFinl ← getPath p1 [PyKey.s fn, PyKey.i it, PyKey.s me, kDecompress, kSize]
      let ws : List Warning := if vInit ≠ vFinl then [⟨fn, me, vInit, vFinl⟩] else []
      Except.ok ({ st with parsed := p1,
                           catch_decomp_size := some false, skip_lines := none }, ws)
    else Except.ok (st, [])
  else Except.ok (st, [])

/-- Run the line loop over all lines: thread the state, accumulate stderr
warnings, stop at the first raised exception (warnings already printed stay
printed). -/
def parse_lines : List (List Char) → PState → (Except PyErr PState) × List Warning
  | [], st => (Except.ok st, [])
  | l :: rest, st =>
    match parse_line st l with
    | Except.error e => (Except.error e, [])
    | Except.ok (st', ws) =>
      let (r, ws') := parse_lines rest st'
      (r, ws ++ ws')

/-- The filesystem visible to `parse_compress`: paths bound to the text
lines of the files. -/
abbrev FileSys := List (List Char × List (List Char))

def fsLookup : FileSys → List Char → Option (List (List Char))
  | [], _ => none
  | (q, c) :: rest, p => if q = p then some c else fsLookup rest p

/-- `os.path.isfile`. -/
def os_isfile (fs : FileSys) (p : List Char) : Bool := (fsLookup fs p).isSome

/-- The observable outcome of a `parse_compress` call: the returned dict or
the raised exception, the files opened for reading, the files written (path
and the JSON document, i.e. the converted dict), and the warnings printed
to stderr. -/
structure PCResult where
  result : Except PyErr PyEntries
  reads : List (List Char)
  writes : List (List Char × PyEntries)
  stderr : List Warning
  deriving DecidableEq, Repr

/-- `parse_compress` from `bench_fastq/utils.py` (lines 79–225): check that
the input file exists (`IOError` otherwise), check the output extension is
`.json` when an output path is given (`IOError` otherwise), run the line
loop over the input's lines, and only after the whole input parsed
successfully convert the dict with `recursive_timedelta_to_totsec` and
write it to the output path. -/
def parse_compress (fs : FileSys) (fin : List Char) (fout : Option (List Char)) : PCResult :=
  let fpath := os_abspath fin
  match fsLookup fs fpath with
  | none => ⟨Except.error PyErr.ioError, [], [], []⟩
  | some lines =>
    if (match fout with
        | some f => !((os_splitext f).2 == (".json".toList))
        | none => false) then
      ⟨Except.error PyErr.ioError, [], [], []⟩
    else
      match parse_lines lines PState.init with
      | (Except.error e, ws) => ⟨Except.error e, [fpath], [], ws⟩
      | (Except.ok st, ws) =>
        match fout with
        | some f =>
          ⟨Except.ok st.parsed, [fpath], [(f, recursive_timedelta_to_totsec st.parsed)], ws⟩
        | none => ⟨Except.ok st.parsed, [fpath], [], ws⟩

/-- Build dict entries from a list of bindings (insertion order). -/
def entriesOf : List (PyKey × PyVal) → PyEntries
  | [] => PyEntries.nil
  | (k, v) :: rest => PyEntries.cons k v (entriesOf rest)

/-- A fixed sample transcript in the format produced by the upstream
`bench_compress.sh` script: the literal marker lines recognised by
`parse_compress`, one file, one iteration, one method. -/
def sampleLines : List (List Char) :=
  [ "Begin processing: /data/test1".toList,
    "Intial .fastq size:".toList,
    "+ du --bytes /data/test1".toList,
    "2000000 /data/test1".toList,
    "Iteration: 0".toList,
    "Testing gzip:".toList,
    "+ sudo time gzip --fast /data/test1".toList,
    "1.20user 0.30system 0:14.30elapsed 95%CPU (0avgtext+0avgdata 1024maxresident)k".toList,
    "+ du --bytes /data/test1.gz".toList,
    "800000 /data/test1.gz".toList,
    "+ sudo time gzip -d /data/test1.gz".toList,
    "0.80user 0.20system 0:03.70elapsed ?%CPU (0avgtext+0avgdata 1024maxresident)k".toList,
    "+ du --bytes /data/test1".toList,
    "2000000 /data/test1".toList ]

def samplePath : List Char := "/data/bench.txt".toList

def sampleFS : FileSys := [(samplePath, sampleLines)]

/-- The nested dict that `parse_compress` extracts from `sampleLines`:
keyed by filename, then iteration, then method, then process, holding the
command line, elapsed time, CPU percentage and byte sizes read from the
transcript. -/
def sampleParsed : PyEntries :=
  entriesOf
    [ (PyKey.s ("test1".toList), PyVal.dict (entriesOf
        [ (kSize, PyVal.int 2000000),
          (PyKey.i 0, PyVal.dict (entriesOf
            [ (PyKey.s ("gzip".toList), PyVal.dict (entriesOf
                [ (kCompress, PyVal.dict (entriesOf
                    [ (kCommand, PyVal.str ("+ sudo time gzip --fast /data/test1".toList)),
                      (kElapsedTime, PyVal.td ⟨14300000⟩),
                      (kCPUpct, PyVal.float ⟨95, 0⟩),
                      (kSize, PyVal.int 800000) ])),
                  (kDecompress, PyVal.dict (entriesOf
                    [ (kCommand, PyVal.str ("+ sudo time gzip -d /data/test1.gz".toList)),
                      (kElapsedTime, PyVal.td ⟨3700000⟩),
                      (kCPUpct, PyVal.nan),
                      (kSize, PyVal.int 2000000) ])) ])) ])) ])) ]

/-- C3: for the fixed sample transcript `sampleLines` in the upstream
script's format (marker lines `Begin processing:`, `Intial .fastq size:`,
`Iteration:`, `Testing`, `+ sudo time`, `+ du --bytes`, and elapsed/CPU
lines), `parse_compress` returns exactly the known nested dict
`sampleParsed`, keyed by filename, then iteration, then method, then
process, holding the command line, elapsed time, CPU percentage and byte
sizes read from the transcript. -/
theorem parse_compress_sample_transcript :
    parse_compress sampleFS samplePath none =
      ⟨Except.ok sampleParsed, [samplePath], [], []⟩ := by decide

/-- C6: when the input path does not name an existing file, `parse_compress`
raises `IOError` without reading any input or writing any output. -/
theorem parse_compress_missing_input (fs : FileSys) (fin : List Char)
    (fout : Option (List Char)) (h : fsLookup fs (os_abspath fin) = none) :
    parse_compress fs fin fout = ⟨Except.error PyErr.ioError, [], [], []⟩ := by
  simp only [parse_compress, h]

theorem parse_compress_missing_input_witness :
    fsLookup [] (os_abspath ("/nofile.txt".toList)) = none ∧
      parse_compress [] ("/nofile.txt".toList) none =
        ⟨Except.error PyErr.ioError, [], [], []⟩ :=
  ⟨by decide, parse_compress_missing_input [] ("/nofile.txt".toList) none (by decide)⟩

/-- C7: when an output path is given whose extension is not `.json`,
`parse_compress` raises `IOError` before parsing anything, and no output
file is created (when the input file is missing as well, the earlier
existence check raises `IOError` just the same). -/
theorem parse_compress_bad_extension (fs : FileSys) (fin f : List Char)
    (h : (os_splitext f).2 ≠ (".json".toList)) :
    parse_compress fs fin (some f) = ⟨Except.error PyErr.ioError, [], [], []⟩ := by
  have hb : (!((os_splitext f).2 == (".json".toList))) = true := by
    simpa using h
  cases hfs : fsLookup fs (os_abspath fin) with
  | none => simp only [parse_compress, hfs]
  | some lines => simp only [parse_compress, hfs, hb, if_true]

theorem parse_compress_bad_extension_witness :
    (os_splitext ("/out.txt".toList)).2 ≠ (".json".toList) ∧
      parse_compress sampleFS samplePath (some ("/out.txt".toList)) =
        ⟨Except.error PyErr.ioError, [], [], []⟩ :=
  ⟨by decide, parse_compress_bad_extension sampleFS samplePath ("/out.txt".toList) (by decide)⟩

/-- C4: when parsing any line fails, `parse_compress` propagates the
exception and writes no JSON output even when an output path is given; the
output file is written exactly when the entire input parsed successfully
(and then holds the converted dict). -/
theorem parse_compress_no_output_on_error (fs : FileSys) (fin : List Char)
    (fout : Option (List Char)) :
    (∀ e, (parse_compress fs fin fout).result = Except.error e →
        (parse_compress fs fin fout).writes = []) ∧
    (∀ f d, fout = some f → (parse_compress fs fin fout).result = Except.ok d →
        (parse_compress fs fin fout).writes = [(f, recursive_timedelta_to_totsec d)]) := by
  cases hfs : fsLookup fs (os_abspath fin) with
  | none =>
    refine ⟨fun e _ => by simp [parse_compress, hfs], fun f d hf hr => ?_⟩
    exfalso
    simp [parse_compress, hfs] at hr
  | some lines =>
    cases fout with
    | none =>
      refine ⟨fun e he => ?_, fun f d hf hr => by cases hf⟩
      rcases hpl : parse_lines lines PState.init with ⟨r, ws⟩
      cases r with
      | error e' => simp [parse_compress, hfs, hpl]
      | ok st =>
        exfalso
        simp [parse_compress, hfs, hpl] at he
    | some f0 =>
      cases hb : (!((os_splitext f0).2 == (".json".toList))) with
      | true =>
        have hne : (os_splitext f0).2 ≠ ('.' :: 'j' :: 's' :: 'o' :: 'n' :: []) := by
          simpa using hb
        refine ⟨fun e he => by simp [parse_compress, hfs, hne], fun f d hf hr => ?_⟩
        exfalso
        simp [parse_compress, hfs, hne] at hr
      | false =>
        have heq : (os_splitext f0).2 = ('.' :: 'j' :: 's' :: 'o' :: 'n' :: []) := by
          simpa using hb
        rcases hpl : parse_lines lines PState.init with ⟨r, ws⟩
        cases r with
        | error e' =>
          refine ⟨fun e he => by simp [parse_compress, hfs, heq, hpl], fun f d hf hr => ?_⟩
          exfalso
          simp [parse_compress, hfs, heq, hpl] at hr
        | ok st =>
          refine ⟨fun e he => ?_, fun f d hf hr => ?_⟩
          · exfalso
            simp [parse_compress, hfs, heq, hpl] at he
          · cases hf
            simp [parse_compress, hfs, heq, hpl] at hr ⊢
            rw [hr]

/-- A transcript whose elapsed-time field has four `:`-separated fields, so
`parse_elapsed` raises `AssertionError` in the middle of the pass. -/
def badLines : List (List Char) :=
  [ "Begin processing: /data/test1".toList,
    "Iteration: 0".toList,
    "Testing gzip:".toList,
    "+ sudo time gzip --fast /data/test1".toList,
    "1.20user 0.30system 0:0:0:1elapsed 95%CPU (0avgtext+0avgdata 1024maxresident)k".toList ]

def badFS : FileSys := [(samplePath, badLines)]

theorem parse_compress_no_output_on_error_witness :
    (parse_compress badFS samplePath (some ("/out.json".toList))).result =
        Except.error PyErr.assertionError ∧
      (parse_compress badFS samplePath (some ("/out.json".toList))).writes = [] :=
  ⟨by decide,
   (parse_compress_no_output_on_error badFS samplePath (some ("/out.json".toList))).1
     PyErr.assertionError (by decide)⟩

/-- `pyFloat` raises only `ValueError`. -/
theorem pyFloat_error_eq (s : List Char) (e : PyErr) (h : pyFloat s = Except.error e) :
    e = PyErr.valueError := by
  unfold pyFloat at h
  split at h <;> split at h <;> simp_all

/-- C5: `parse_elapsed` raises `AssertionError` exactly when the input,
split on `:`, has neither 2 nor 3 fields; with 2 or 3 fields it never
raises `AssertionError` (non-numeric fields raise `ValueError` instead). -/
theorem parse_elapsed_field_count_spec (s : List Char) :
    (¬((pySplitChar ':' s).length = 2 ∨ (pySplitChar ':' s).length = 3) →
        parse_elapsed s = Except.error PyErr.assertionError) ∧
    (((pySplitChar ':' s).length = 2 ∨ (pySplitChar ':' s).length = 3) →
        parse_elapsed s ≠ Except.error PyErr.assertionError) := by
  have h0 : pyFloat ['0'] = Except.ok ⟨0, 0⟩ := by decide
  constructor
  · intro h
    rw [parse_elapsed]
    rcases hl : pySplitChar ':' s with _ | ⟨a, _ | ⟨b, _ | ⟨c, _ | ⟨d, t⟩⟩⟩⟩
    · rfl
    · rfl
    · exact absurd (Or.inl (by rw [hl]; rfl)) h
    · exact absurd (Or.inr (by rw [hl]; rfl)) h
    · rfl
  · rintro (h2 | h3) hc
    · obtain ⟨a, b, hl⟩ := List.length_eq_two.mp h2
      rw [parse_elapsed, hl] at hc
      simp only [Bind.bind, Except.bind, h0] at hc
      cases hfa : pyFloat a with
      | error e =>
        rw [hfa] at hc
        cases hc
        exact absurd (pyFloat_error_eq a _ hfa) (by simp)
      | ok qa =>
        rw [hfa] at hc
        cases hfb : pyFloat b with
        | error e =>
          rw [hfb] at hc
          cases hc
          exact absurd (pyFloat_error_eq b _ hfb) (by simp)
        | ok qb =>
          rw [hfb] at hc
          cases hc
    · obtain ⟨a, b, c, hl⟩ := List.length_eq_three.mp h3
      rw [parse_elapsed, hl] at hc
      simp only [Bind.bind, Except.bind] at hc
      cases hfh : pyFloat a with
      | error e =>
        rw [hfh] at hc
        cases hc
        exact absurd (pyFloat_error_eq a _ hfh) (by simp)
      | ok qh =>
        rw [hfh] at hc
        cases hfa : pyFloat b with
        | error e =>
          rw [hfa] at hc
          cases hc
          exact absurd (pyFloat_error_eq b _ hfa) (by simp)
        | ok qa =>
          rw [hfa] at hc
          cases hfb : pyFloat c with
          | error e =>
            rw [hfb] at hc
            cases hc
            exact absurd (pyFloat_error_eq c _ hfb) (by simp)
          | ok qb =>
            rw [hfb] at hc
            cases hc

theorem parse_elapsed_field_count_witness :
    (¬((pySplitChar ':' ("1:2:3:4".toList)).length = 2 ∨
        (pySplitChar ':' ("1:2:3:4".toList)).length = 3) ∧
      parse_elapsed ("1:2:3:4".toList) = Except.error PyErr.assertionError) ∧
    (((pySplitChar ':' ("1:23".toList)).length = 2 ∨
        (pySplitChar ':' ("1:23".toList)).length = 3) ∧
      parse_elapsed ("1:23".toList) ≠ Except.error PyErr.assertionError) :=
  ⟨⟨by decide, (parse_elapsed_field_count_spec ("1:2:3:4".toList)).1 (by decide)⟩,
   ⟨by decide, (parse_elapsed_field_count_spec ("1:23".toList)).2 (by decide)⟩⟩

/-- The conversion preserves the key list. -/
theorem dKeys_recursive_timedelta_to_totsec :
    (d : PyEntries) → dKeys (recursive_timedelta_to_totsec d) = dKeys d
  | PyEntries.nil => rfl
  | PyEntries.cons k v rest => by
    simp [recursive_timedelta_to_totsec, dKeys, dKeys_recursive_timedelta_to_totsec rest]

/-- Lookup in the converted dict is the converted lookup. -/
theorem dGet_recursive_timedelta_to_totsec :
    (d : PyEntries) → (k : PyKey) →
      dGet (recursive_timedelta_to_totsec d) k = (dGet d k).map convElem
  | PyEntries.nil, _ => rfl
  | PyEntries.cons k' v rest, k => by
    by_cases h : k' = k <;>
      simp [recursive_timedelta_to_totsec, dGet, h, dGet_recursive_timedelta_to_totsec rest k]

/-- C2: `recursive_timedelta_to_totsec` returns a dict with exactly the same
keys at every nesting level; every `datetime.timedelta` value is replaced by
its total seconds, every other non-dict value is preserved unchanged, and
nested dicts are converted by the same rule recursively. -/
theorem recursive_timedelta_to_totsec_spec (d : PyEntries) :
    dKeys (recursive_timedelta_to_totsec d) = dKeys d ∧
    (∀ k t, dGet d k = some (PyVal.td t) →
        dGet (recursive_timedelta_to_totsec d) k = some (PyVal.float t.totsecDec) ∧
          (t.totsecDec).val = t.total_seconds) ∧
    (∀ k d', dGet d k = some (PyVal.dict d') →
        dGet (recursive_timedelta_to_totsec d) k =
          some (PyVal.dict (recursive_timedelta_to_totsec d'))) ∧
    (∀ k v, dGet d k = some v → (∀ t, v ≠ PyVal.td t) → (∀ e, v ≠ PyVal.dict e) →
        dGet (recursive_timedelta_to_totsec d) k = some v) := by
  refine ⟨dKeys_recursive_timedelta_to_totsec d, ?_, ?_, ?_⟩
  · intro k t h
    refine ⟨by rw [dGet_recursive_timedelta_to_totsec, h]; rfl, ?_⟩
    show ((t.micro : ℚ) / (10 : ℚ) ^ (6 : ℕ)) = (t.micro : ℚ) / 1000000
    norm_num
  · intro k d' h
    rw [dGet_recursive_timedelta_to_totsec, h]
    rfl
  · intro k v h ht hd
    rw [dGet_recursive_timedelta_to_totsec, h]
    cases v with
    | td t => exact absurd rfl (ht t)
    | dict e => exact absurd rfl (hd e)
    | int n => rfl
    | float q => rfl
    | nan => rfl
    | str s => rfl

/-- A small nested dict exercising the three conversion cases. -/
def c2Example : PyEntries :=
  entriesOf
    [ (PyKey.s ['a'], PyVal.td ⟨1500000⟩),
      (PyKey.s ['b'], PyVal.int 7),
      (PyKey.s ['c'], PyVal.dict (entriesOf [(PyKey.s ['e'], PyVal.td ⟨2000000⟩)])) ]

theorem recursive_timedelta_to_totsec_spec_witness :
    dGet c2Example (PyKey.s ['a']) = some (PyVal.td ⟨1500000⟩) ∧
    (dGet (recursive_timedelta_to_totsec c2Example) (PyKey.s ['a']) =
        some (PyVal.float (Timedelta.totsecDec ⟨1500000⟩)) ∧
      (Timedelta.totsecDec ⟨1500000⟩).val = Timedelta.total_seconds ⟨1500000⟩) ∧
    dGet (recursive_timedelta_to_totsec c2Example) (PyKey.s ['b']) = some (PyVal.int 7) :=
  ⟨by decide,
   (recursive_timedelta_to_totsec_spec c2Example).2.1 (PyKey.s ['a']) ⟨1500000⟩ (by decide),
   (recursive_timedelta_to_totsec_spec c2Example).2.2.2 (PyKey.s ['b']) (PyVal.int 7)
     (by decide) (fun t h => PyVal.noConfusion h) (fun e h => PyVal.noConfusion h)⟩

/-- Evaluation of `parse_elapsed` on a two-field input with numeric fields. -/
theorem parse_elapsed_eval2 (s ms ss : List Char) (md sd : Dec)
    (hl : pySplitChar ':' s = [ms, ss])
    (hfm : pyFloat ms = Except.ok md) (hfs : pyFloat ss = Except.ok sd) :
    parse_elapsed s = Except.ok (Timedelta.ofHMSms 0 md.trunc sd.trunc
      (((sd.fsubInt sd.trunc).fdiv d001).trunc)) := by
  have h0 : pyFloat ['0'] = Except.ok ⟨0, 0⟩ := by decide
  rw [parse_elapsed, hl]
  simp only [Bind.bind, Except.bind, h0, hfm, hfs]
  rfl

/-- Evaluation of `parse_elapsed` on a three-field input with numeric
fields. -/
theorem parse_elapsed_eval3 (s hs ms ss : List Char) (hd md sd : Dec)
    (hl : pySplitChar ':' s = [hs, ms, ss])
    (hfh : pyFloat hs = Except.ok hd) (hfm : pyFloat ms = Except.ok md)
    (hfs : pyFloat ss = Except.ok sd) :
    parse_elapsed s = Except.ok (Timedelta.ofHMSms hd.trunc md.trunc sd.trunc
      (((sd.fsubInt sd.trunc).fdiv d001).trunc)) := by
  rw [parse_elapsed, hl]
  simp only [Bind.bind, Except.bind, hfh, hfm, hfs]

/-- An integer-valued `Dec` truncates to its own integer. -/
theorem dec_trunc_int (m : Int) (hm : 0 ≤ m) : Dec.trunc ⟨m, 0⟩ = m := by
  show Int.tdiv m ((10 : Int) ^ (0 : Nat)) = m
  rw [pow_zero, Int.tdiv_eq_ediv hm (by norm_num), Int.ediv_one]

/-- Subtracting a float's own truncation when the float is integral gives
the float zero. -/
theorem dec_fsubInt_self (sv : Int) : Dec.fsubInt ⟨sv, 0⟩ sv = ⟨0, 0⟩ := by
  show roundB64 (sv - sv * (10 : Int) ^ (0 : Nat)) ((10 : Int) ^ (0 : Nat)) = ⟨0, 0⟩
  rw [pow_zero, mul_one, sub_self, roundB64]
  simp

/-- Dividing the float zero gives the float zero. -/
theorem dec_fdiv_zero (b : Dec) : Dec.fdiv ⟨0, 0⟩ b = ⟨0, 0⟩ := by
  show roundB64 (0 * (10 : Int) ^ b.den10) (b.num * (10 : Int) ^ (0 : Nat)) = ⟨0, 0⟩
  rw [zero_mul, roundB64]
  simp

/-- C1, counterexample to the frozen claim: the exact equality
"total seconds = hours*3600 + minutes*60 + seconds including the fractional
part" fails on the program.  For `0:01.15` the binary64 value of `'01.15'`
is slightly below 1.15, so `int((float('01.15') - 1) / 0.001) = 149` and
the parsed timedelta is 1.149 s, not 1.15 s (= 23/20). -/
theorem parse_elapsed_frac_counterexample :
    parse_elapsed ("0:01.15".toList) = Except.ok ⟨1149000⟩ ∧
      ¬ (Timedelta.total_seconds ⟨1149000⟩ =
          (0 : ℚ) * 3600 + (0 : ℚ) * 60 + (23 : ℚ) / 20) := by
  constructor
  · decide
  · rw [Timedelta.total_seconds]
    norm_num

/-- C1, amended: on `MM:SS` and `HH:MM:SS` forms whose fields parse as
floats, the hours and minutes contribute exactly `hours*3600 + minutes*60`
seconds and the seconds field contributes its integer part plus a whole
number of milliseconds computed from the fractional part by the float
arithmetic `int((float(seconds) - seconds_int) / 0.001)`; when the seconds
field's float value is integral the total seconds equal
`hours*3600 + minutes*60 + seconds` exactly; and the two-field form `MM:SS`
and the three-field form `0:MM:SS` of the same time parse to equal
timedeltas. -/
theorem parse_elapsed_total_seconds_amended :
    (∀ (s ms ss : List Char) (m sv : Int),
        pySplitChar ':' s = [ms, ss] →
        pyFloat ms = Except.ok ⟨m, 0⟩ → 0 ≤ m →
        pyFloat ss = Except.ok ⟨sv, 0⟩ → 0 ≤ sv →
        ∃ td, parse_elapsed s = Except.ok td ∧
          td.total_seconds = (m : ℚ) * 60 + (sv : ℚ)) ∧
    (∀ (s hs ms ss : List Char) (hq m sv : Int),
        pySplitChar ':' s = [hs, ms, ss] →
        pyFloat hs = Except.ok ⟨hq, 0⟩ → 0 ≤ hq →
        pyFloat ms = Except.ok ⟨m, 0⟩ → 0 ≤ m →
        pyFloat ss = Except.ok ⟨sv, 0⟩ → 0 ≤ sv →
        ∃ td, parse_elapsed s = Except.ok td ∧
          td.total_seconds = (hq : ℚ) * 3600 + (m : ℚ) * 60 + (sv : ℚ)) ∧
    (∀ (s ms ss : List Char) (m : Int) (sd : Dec),
        pySplitChar ':' s = [ms, ss] →
        pyFloat ms = Except.ok ⟨m, 0⟩ → 0 ≤ m →
        pyFloat ss = Except.ok sd →
        ∃ td, parse_elapsed s = Except.ok td ∧
          td.total_seconds = (m : ℚ) * 60 + (sd.trunc : ℚ) +
            ((((sd.fsubInt sd.trunc).fdiv d001).trunc : Int) : ℚ) / 1000) ∧
    (∀ s : List Char, (pySplitChar ':' s).length = 2 →
        parse_elapsed ('0' :: ':' :: s) = parse_elapsed s) := by
  refine ⟨?_, ?_, ?_, ?_⟩
  · intro s ms ss m sv hl hfm hm hfs hsv
    refine ⟨_, parse_elapsed_eval2 s ms ss ⟨m, 0⟩ ⟨sv, 0⟩ hl hfm hfs, ?_⟩
    rw [dec_trunc_int m hm, dec_trunc_int sv hsv, dec_fsubInt_self, dec_fdiv_zero]
    have h3 : Dec.trunc ⟨0, 0⟩ = 0 := by decide
    rw [h3]
    show ((((0 * 3600 + m * 60 + sv) * 1000 + 0) * 1000 : Int) : ℚ) / 1000000 =
      (m : ℚ) * 60 + (sv : ℚ)
    push_cast
    ring
  · intro s hs ms ss hq m sv hl hfh hh hfm hm hfs hsv
    refine ⟨_, parse_elapsed_eval3 s hs ms ss ⟨hq, 0⟩ ⟨m, 0⟩ ⟨sv, 0⟩ hl hfh hfm hfs, ?_⟩
    rw [dec_trunc_int hq hh, dec_trunc_int m hm, dec_trunc_int sv hsv,
      dec_fsubInt_self, dec_fdiv_zero]
    have h3 : Dec.trunc ⟨0, 0⟩ = 0 := by decide
    rw [h3]
    show ((((hq * 3600 + m * 60 + sv) * 1000 + 0) * 1000 : Int) : ℚ) / 1000000 =
      (hq : ℚ) * 3600 + (m : ℚ) * 60 + (sv : ℚ)
    push_cast
    ring
  · intro s ms ss m sd hl hfm hm hfs
    refine ⟨_, parse_elapsed_eval2 s ms ss ⟨m, 0⟩ sd hl hfm hfs, ?_⟩
    rw [dec_trunc_int m hm]
    show ((((0 * 3600 + m * 60 + sd.trunc) * 1000 +
        ((sd.fsubInt sd.trunc).fdiv d001).trunc) * 1000 : Int) : ℚ) / 1000000 =
      (m : ℚ) * 60 + (sd.trunc : ℚ) +
        ((((sd.fsubInt sd.trunc).fdiv d001).trunc : Int) : ℚ) / 1000
    push_cast
    ring
  · intro s h2
    have hsplit : pySplitChar ':' ('0' :: ':' :: s) = ['0'] :: pySplitChar ':' s := rfl
    obtain ⟨a, b, hl⟩ := List.length_eq_two.mp h2
    simp only [parse_elapsed]
    rw [hsplit, hl]

theorem parse_elapsed_total_seconds_amended_witness :
    (∃ td, parse_elapsed ("1:05".toList) = Except.ok td ∧
        td.total_seconds = ((1 : Int) : ℚ) * 60 + ((5 : Int) : ℚ)) ∧
    (∃ td, parse_elapsed ("2:01:03".toList) = Except.ok td ∧
        td.total_seconds = ((2 : Int) : ℚ) * 3600 + ((1 : Int) : ℚ) * 60 + ((3 : Int) : ℚ)) ∧
    (∃ td, parse_elapsed ("1:23.5".toList) = Except.ok td ∧
        td.total_seconds = ((1 : Int) : ℚ) * 60 + ((Dec.trunc ⟨235, 1⟩ : Int) : ℚ) +
          ((((Dec.fsubInt ⟨235, 1⟩ (Dec.trunc ⟨235, 1⟩)).fdiv d001).trunc : Int) : ℚ) / 1000) ∧
    parse_elapsed ('0' :: ':' :: ("1:23".toList)) = parse_elapsed ("1:23".toList) :=
  ⟨(parse_elapsed_total_seconds_amended).1 ("1:05".toList) ("1".toList) ("05".toList)
      1 5 (by decide) (by decide) (by decide) (by decide) (by decide),
   (parse_elapsed_total_seconds_amended).2.1 ("2:01:03".toList) ("2".toList) ("01".toList)
      ("03".toList) 2 1 3 (by decide) (by decide) (by decide) (by decide) (by decide)
      (by decide) (by decide),
   (parse_elapsed_total_seconds_amended).2.2.1 ("1:23.5".toList) ("1".toList)
      ("23.5".toList) 1 ⟨235, 1⟩ (by decide) (by decide) (by decide) (by decide),
   (parse_elapsed_total_seconds_amended).2.2.2 ("1:23".toList) (by decide)⟩

/-- `dGet` after `dSet` at the same key. -/
theorem dGet_dSet_same : (d : PyEntries) → (k : PyKey) → (v : PyVal) →
    dGet (dSet d k v) k = some v
  | PyEntries.nil, k, v => by simp [dSet, dGet]
  | PyEntries.cons k' v' rest, k, v => by
    by_cases h : k' = k <;> simp [dSet, dGet, h, dGet_dSet_same rest k v]

/-- After a successful `setPath`, setting another key along the same prefix
path succeeds as well. -/
theorem setPath_again : (path : List PyKey) → ∀ (d d' : PyEntries) (k : PyKey) (v : PyVal),
    setPath d path k v = Except.ok d' → ∀ (k2 : PyKey) (v2 : PyVal),
      ∃ d2, setPath d' path k2 v2 = Except.ok d2
  | [], d, d', k, v, h, k2, v2 => ⟨dSet d' k2 v2, rfl⟩
  | p :: ps, d, d', k, v, h, k2, v2 => by
    rw [setPath] at h
    split at h
    · cases h
    · rename_i sub hget
      split at h
      · cases h
      · rename_i sub2 hsp
        cases h
        obtain ⟨e2, he2⟩ := setPath_again ps sub sub2 k v hsp k2 v2
        refine ⟨dSet (dSet d p (PyVal.dict sub2)) p (PyVal.dict e2), ?_⟩
        rw [setPath]
        simp only [dGet_dSet_same, he2]
    · cases h

/-- After `setPath d path k v` succeeds, reading back `path ++ [k]` gives
`v`. -/
theorem getPath_setPath : (path : List PyKey) → ∀ (d d' : PyEntries) (k : PyKey) (v : PyVal),
    setPath d path k v = Except.ok d' → getPath d' (path ++ [k]) = Except.ok v
  | [], d, d', k, v, h => by
    cases h
    simp [getPath, dGet_dSet_same]
  | p :: ps, d, d', k, v, h => by
    rw [setPath] at h
    split at h
    · cases h
    · rename_i sub hget
      split at h
      · cases h
      · rename_i sub2 hsp
        cases h
        have ih := getPath_setPath ps sub sub2 k v hsp
        show getPath (dSet d p (PyVal.dict sub2)) (p :: (ps ++ [k])) = Except.ok v
        rw [getPath]
        simp only [dGet_dSet_same]
        cases ps with
        | nil => exact ih
        | cons a as => exact ih
    · cases h

theorem truthy_some (b : Bool) : truthy (some b) = b := rfl

/-- C9: in `parse_compress`'s elapsed/CPU handler, when the CPU field
(after stripping the characters of `'%CPU'`) is `'?'` the recorded
`CPU_percent` is NaN, otherwise it is the float value of that field; and
this holds identically in the compress branch and the decompress branch. -/
theorem parse_line_cpu_percent_spec :
    (∀ (raw line : List Char) (parsed : PyEntries) (fn me : List Char) (it : Int)
        (skl : Option Int) (cis ccc ccs dcc dct dcs : Option Bool)
        (toks : List (List Char)) (a2 a3 : List Char) (td0 : Timedelta) (p1 : PyEntries),
      pyRstripWs raw = line →
      sBegin.isPrefixOf line = false →
      sIntial.isPrefixOf line = false →
      truthy cis = false →
      sIteration.isPrefixOf line = false →
      sTesting.isPrefixOf line = false →
      truthy ccc = false →
      pyContains sElapsed line = true →
      pyContains sCPU line = true →
      pySplitWs line = toks →
      toks[2]? = some a2 →
      parse_elapsed (pyStripChars sElapsed a2) = Except.ok td0 →
      toks[3]? = some a3 →
      setPath parsed [PyKey.s fn, PyKey.i it, PyKey.s me, kCompress] kElapsedTime
          (PyVal.td td0) = Except.ok p1 →
      (pyStripChars sPctCPU a3 = ['?'] →
        ∃ st', parse_line ⟨parsed, some fn, some it, some me, skl, cis, ccc, some true,
            ccs, dcc, dct, dcs⟩ raw = Except.ok (st', []) ∧
          getPath st'.parsed [PyKey.s fn, PyKey.i it, PyKey.s me, kCompress, kCPUpct] =
            Except.ok PyVal.nan) ∧
      (∀ q, pyStripChars sPctCPU a3 ≠ ['?'] →
        pyFloat (pyStripChars sPctCPU a3) = Except.ok q →
        ∃ st', parse_line ⟨parsed, some fn, some it, some me, skl, cis, ccc, some true,
            ccs, dcc, dct, dcs⟩ raw = Except.ok (st', []) ∧
          getPath st'.parsed [PyKey.s fn, PyKey.i it, PyKey.s me, kCompress, kCPUpct] =
            Except.ok (PyVal.float q))) ∧
    (∀ (raw line : List Char) (parsed : PyEntries) (fn me : List Char) (it : Int)
        (skl : Option Int) (cis ccc cct ccs dcc dcs : Option Bool)
        (toks : List (List Char)) (a2 a3 : List Char) (td0 : Timedelta) (p1 : PyEntries),
      pyRstripWs raw = line →
      sBegin.isPrefixOf line = false →
      sIntial.isPrefixOf line = false →
      truthy cis = false →
      sIteration.isPrefixOf line = false →
      sTesting.isPrefixOf line = false →
      truthy ccc = false →
      truthy cct = false →
      truthy ccs = false →
      truthy dcc = false →
      pyContains sElapsed line = true →
      pyContains sCPU line = true →
      pySplitWs line = toks →
      toks[2]? = some a2 →
      parse_elapsed (pyStripChars sElapsed a2) = Except.ok td0 →
      toks[3]? = some a3 →
      setPath parsed [PyKey.s fn, PyKey.i it, PyKey.s me, kDecompress] kElapsedTime
          (PyVal.td td0) = Except.ok p1 →
      (pyStripChars sPctCPU a3 = ['?'] →
        ∃ st', parse_line ⟨parsed, some fn, some it, some me, skl, cis, ccc, cct,
            ccs, dcc, some true, dcs⟩ raw = Except.ok (st', []) ∧
          getPath st'.parsed [PyKey.s fn, PyKey.i it, PyKey.s me, kDecompress, kCPUpct] =
            Except.ok PyVal.nan) ∧
      (∀ q, pyStripChars sPctCPU a3 ≠ ['?'] →
        pyFloat (pyStripChars sPctCPU a3) = Except.ok q →
        ∃ st', parse_line ⟨parsed, some fn, some it, some me, skl, cis, ccc, cct,
            ccs, dcc, some true, dcs⟩ raw = Except.ok (st', []) ∧
          getPath st'.parsed [PyKey.s fn, PyKey.i it, PyKey.s me, kDecompress, kCPUpct] =
            Except.ok (PyVal.float q))) := by
  constructor
  · intro raw line parsed fn me it skl cis ccc ccs dcc dct dcs toks a2 a3 td0 p1
    intro hline h1 h2 h3 h4 h5 h6 h8 h9 htoks ha2 hpe ha3 hset
    constructor
    · intro hq
      obtain ⟨p2, hp2⟩ := setPath_again _ parsed p1 _ _ hset kCPUpct PyVal.nan
      refine ⟨⟨p2, some fn, some it, some me, skl, cis, ccc, some false, some true,
        dcc, dct, dcs⟩, ?_, ?_⟩
      · simp [parse_line, hline, h1, h2, h3, h4, h5, h6, h8, h9, truthy_some,
          handleTimeLine, Bind.bind, Except.bind, htoks, listAt,
          ha2, ha3, hpe, getVar, hset, hq, hp2]
      · exact getPath_setPath _ p1 p2 kCPUpct PyVal.nan hp2
    · intro q hqne hf
      obtain ⟨p2, hp2⟩ := setPath_again _ parsed p1 _ _ hset kCPUpct (PyVal.float q)
      refine ⟨⟨p2, some fn, some it, some me, skl, cis, ccc, some false, some true,
        dcc, dct, dcs⟩, ?_, ?_⟩
      · simp [parse_line, hline, h1, h2, h3, h4, h5, h6, h8, h9, truthy_some,
          handleTimeLine, Bind.bind, Except.bind, htoks, listAt,
          ha2, ha3, hpe, getVar, hset, hqne, hf, hp2]
      · exact getPath_setPath _ p1 p2 kCPUpct (PyVal.float q) hp2
  · intro raw line parsed fn me it skl cis ccc cct ccs dcc dcs toks a2 a3 td0 p1
    intro hline h1 h2 h3 h4 h5 h6 h7 h8 h9 h10 h11 htoks ha2 hpe ha3 hset
    constructor
    · intro hq
      obtain ⟨p2, hp2⟩ := setPath_again _ parsed p1 _ _ hset kCPUpct PyVal.nan
      refine ⟨⟨p2, some fn, some it, some me, skl, cis, ccc, cct, ccs, dcc,
        some false, some true⟩, ?_, ?_⟩
      · simp [parse_line, hline, h1, h2, h3, h4, h5, h6, h7, h8, h9, h10, h11,
          truthy_some, handleTimeLine, Bind.bind, Except.bind, htoks, listAt,
          ha2, ha3, hpe, getVar, hset, hq, hp2]
      · exact getPath_setPath _ p1 p2 kCPUpct PyVal.nan hp2
    · intro q hqne hf
      obtain ⟨p2, hp2⟩ := setPath_again _ parsed p1 _ _ hset kCPUpct (PyVal.float q)
      refine ⟨⟨p2, some fn, some it, some me, skl, cis, ccc, cct, ccs, dcc,
        some false, some true⟩, ?_, ?_⟩
      · simp [parse_line, hline, h1, h2, h3, h4, h5, h6, h7, h8, h9, h10, h11,
          truthy_some, handleTimeLine, Bind.bind, Except.bind, htoks, listAt,
          ha2, ha3, hpe, getVar, hset, hqne, hf, hp2]
      · exact getPath_setPath _ p1 p2 kCPUpct (PyVal.float q) hp2

/-- Concrete inputs for the CPU-percent witness. -/
def c9ParsedC : PyEntries :=
  entriesOf [(PyKey.s ("f1".toList), PyVal.dict (entriesOf
    [(PyKey.i 0, PyVal.dict (entriesOf
      [(PyKey.s ("gz".toList), PyVal.dict (entriesOf
        [(kCompress, PyVal.dict PyEntries.nil)]))]))]))]

def c9P1C : PyEntries :=
  entriesOf [(PyKey.s ("f1".toList), PyVal.dict (entriesOf
    [(PyKey.i 0, PyVal.dict (entriesOf
      [(PyKey.s ("gz".toList), PyVal.dict (entriesOf
        [(kCompress, PyVal.dict (entriesOf [(kElapsedTime, PyVal.td ⟨1500000⟩)]))]))]))]))]

def c9ParsedD : PyEntries :=
  entriesOf [(PyKey.s ("f1".toList), PyVal.dict (entriesOf
    [(PyKey.i 0, PyVal.dict (entriesOf
      [(PyKey.s ("gz".toList), PyVal.dict (entriesOf
        [(kDecompress, PyVal.dict PyEntries.nil)]))]))]))]

def c9P1D : PyEntries :=
  entriesOf [(PyKey.s ("f1".toList), PyVal.dict (entriesOf
    [(PyKey.i 0, PyVal.dict (entriesOf
      [(PyKey.s ("gz".toList), PyVal.dict (entriesOf
        [(kDecompress, PyVal.dict (entriesOf [(kElapsedTime, PyVal.td ⟨3700000⟩)]))]))]))]))]

def c9LineC : List Char :=
  "1.20user 0.30system 0:01.50elapsed ?%CPU (0avgtext)k".toList

def c9LineD : List Char :=
  "0.80user 0.20system 0:03.70elapsed 95%CPU (0avgtext)k".toList

theorem parse_line_cpu_percent_witness :
    (∃ st', parse_line ⟨c9ParsedC, some ("f1".toList), some 0, some ("gz".toList),
        none, none, none, some true, none, none, none, none⟩ c9LineC =
          Except.ok (st', []) ∧
        getPath st'.parsed [PyKey.s ("f1".toList), PyKey.i 0, PyKey.s ("gz".toList),
          kCompress, kCPUpct] = Except.ok PyVal.nan) ∧
    (∃ st', parse_line ⟨c9ParsedD, some ("f1".toList), some 0, some ("gz".toList),
        none, none, none, none, none, none, some true, none⟩ c9LineD =
          Except.ok (st', []) ∧
        getPath st'.parsed [PyKey.s ("f1".toList), PyKey.i 0, PyKey.s ("gz".toList),
          kDecompress, kCPUpct] = Except.ok (PyVal.float ⟨95, 0⟩)) :=
  ⟨(parse_line_cpu_percent_spec.1 c9LineC c9LineC c9ParsedC ("f1".toList) ("gz".toList) 0
      none none none none none none none (pySplitWs c9LineC)
      ("0:01.50elapsed".toList) ("?%CPU".toList) ⟨1500000⟩ c9P1C
      (by decide) (by decide) (by decide) (by decide) (by decide) (by decide) (by decide)
      (by decide) (by decide) rfl (by decide) (by decide) (by decide) (by decide)).1
     (by decide),
   (parse_line_cpu_percent_spec.2 c9LineD c9LineD c9ParsedD ("f1".toList) ("gz".toList) 0
      none none none none none none none (pySplitWs c9LineD)
      ("0:03.70elapsed".toList) ("95%CPU".toList) ⟨3700000⟩ c9P1D
      (by decide) (by decide) (by decide) (by decide) (by decide) (by decide) (by decide)
      (by decide) (by decide) (by decide) (by decide) (by decide) rfl (by decide)
      (by decide) (by decide) (by decide)).2
     ⟨95, 0⟩ (by decide) (by decide)⟩

/-- C8: in the decompress-size branch, when the decompressed `size_bytes`
differs from the file's initial `size_bytes`, `parse_line` emits exactly one
stderr warning carrying the file name, method and both sizes, raises no
exception, clears the catch flag and the skip counter (so the pass
continues), and the mismatching value is still recorded in the dict. -/
theorem parse_line_size_mismatch_warns
    (raw line : List Char) (parsed : PyEntries) (fn me : List Char) (it : Int)
    (cis ccc cct ccs dcc dct : Option Bool)
    (toks : List (List Char)) (a0 : List Char) (n : Int) (p1 : PyEntries) (vInit : PyVal)
    (hline : pyRstripWs raw = line)
    (h1 : sBegin.isPrefixOf line = false)
    (h2 : sIntial.isPrefixOf line = false)
    (h3 : truthy cis = false)
    (h4 : sIteration.isPrefixOf line = false)
    (h5 : sTesting.isPrefixOf line = false)
    (h6 : truthy ccc = false)
    (h7 : truthy cct = false)
    (h8 : truthy ccs = false)
    (h9 : truthy dcc = false)
    (h10 : truthy dct = false)
    (hdu : sDuBytes.isPrefixOf line = false)
    (htoks : pySplitWs line = toks)
    (ha0 : toks[0]? = some a0)
    (hn : pyInt a0 = Except.ok n)
    (hset : setPath parsed [PyKey.s fn, PyKey.i it, PyKey.s me, kDecompress] kSize
        (PyVal.int n) = Except.ok p1)
    (hvInit : getPath p1 [PyKey.s fn, kSize] = Except.ok vInit)
    (hne : vInit ≠ PyVal.int n) :
    parse_line ⟨parsed, some fn, some it, some me, some 0, cis, ccc, cct, ccs,
        dcc, dct, some true⟩ raw =
      Except.ok (⟨p1, some fn, some it, some me, none, cis, ccc, cct, ccs,
        dcc, dct, some false⟩, [⟨fn, me, vInit, PyVal.int n⟩]) ∧
    getPath p1 [PyKey.s fn, PyKey.i it, PyKey.s me, kDecompress, kSize] =
      Except.ok (PyVal.int n) := by
  have hvFinl : getPath p1 [PyKey.s fn, PyKey.i it, PyKey.s me, kDecompress, kSize] =
      Except.ok (PyVal.int n) :=
    getPath_setPath [PyKey.s fn, PyKey.i it, PyKey.s me, kDecompress] parsed p1 kSize
      (PyVal.int n) hset
  refine ⟨?_, hvFinl⟩
  simp [parse_line, hline, h1, h2, h3, h4, h5, h6, h7, h8, h9, h10, hdu, truthy_some,
    eqZero, Bind.bind, Except.bind, htoks, listAt, ha0, hn, getVar, hset, hvInit,
    hvFinl, hne]

/-- Concrete inputs for the size-mismatch witness. -/
def c8Parsed : PyEntries :=
  entriesOf [(PyKey.s ("f1".toList), PyVal.dict (entriesOf
    [(kSize, PyVal.int 5),
     (PyKey.i 0, PyVal.dict (entriesOf
       [(PyKey.s ("gz".toList), PyVal.dict (entriesOf
         [(kDecompress, PyVal.dict PyEntries.nil)]))]))]))]

def c8P1 : PyEntries :=
  entriesOf [(PyKey.s ("f1".toList), PyVal.dict (entriesOf
    [(kSize, PyVal.int 5),
     (PyKey.i 0, PyVal.dict (entriesOf
       [(PyKey.s ("gz".toList), PyVal.dict (entriesOf
         [(kDecompress, PyVal.dict (entriesOf [(kSize, PyVal.int 4)]))]))]))]))]

theorem parse_line_size_mismatch_witness :
    parse_line ⟨c8Parsed, some ("f1".toList), some 0, some ("gz".toList), some 0,
        none, none, none, none, none, none, some true⟩ ("4 /data/f1".toList) =
      Except.ok (⟨c8P1, some ("f1".toList), some 0, some ("gz".toList), none,
        none, none, none, none, none, none, some false⟩,
        [⟨"f1".toList, "gz".toList, PyVal.int 5, PyVal.int 4⟩]) ∧
    getPath c8P1 [PyKey.s ("f1".toList), PyKey.i 0, PyKey.s ("gz".toList),
        kDecompress, kSize] = Except.ok (PyVal.int 4) :=
  parse_line_size_mismatch_warns ("4 /data/f1".toList) ("4 /data/f1".toList) c8Parsed
    ("f1".toList) ("gz".toList) 0 none none none none none none
    (pySplitWs ("4 /data/f1".toList)) ("4".toList) 4 c8P1 (PyVal.int 5)
    (by decide) (by decide) (by decide) (by decide) (by decide) (by decide) (by decide)
    (by decide) (by decide) (by decide) (by decide) (by decide) rfl (by decide)
    (by decide) (by decide) (by decide) (by decide)

/-- Heap values for the reference-semantics model of
`recursive_timedelta_to_totsec`: scalar Python values are immediate, a dict
value is a reference to a heap cell. -/
inductive HVal where
  | td (t : Timedelta)
  | int (n : Int)
  | float (d : Dec)
  | nan
  | str (s : List Char)
  | ref (a : Nat)
  deriving DecidableEq, Repr

abbrev HEntries := List (PyKey × HVal)

/-- The heap of dict objects: cell `a` holds the entries of the dict whose
address is `a`; `alloc` appends a fresh cell.  The loop of
`recursive_timedelta_to_totsec` only reads `dobj` and fills the freshly
allocated `dobj_converted`, so the model writes no existing cell. -/
structure Heap where
  cells : List HEntries
  deriving DecidableEq, Repr

def Heap.lookup (h : Heap) (a : Nat) : Option HEntries := h.cells[a]?

def Heap.alloc (h : Heap) (es : HEntries) : Heap × Nat :=
  (⟨h.cells ++ [es]⟩, h.cells.length)

mutual
/-- Reference-semantics `recursive_timedelta_to_totsec`: convert the dict at
address `a`, allocating a fresh dict for the result; `none` models Python's
`RecursionError` when the nesting (or a reference cycle) exhausts the
fuel. -/
def recTotsecH : Nat → Heap → Nat → Option (Heap × Nat)
  | 0, _, _ => none
  | fuel + 1, h, a =>
    match h.lookup a with
    | none => none
    | some es =>
      match recTotsecEntries fuel h es with
      | none => none
      | some (h', es') => some (Heap.alloc h' es')
  termination_by fuel _ _ => (fuel, 0)

/-- Convert the entries of one dict in insertion order, threading the heap:
timedeltas become their total seconds, references to nested dicts are
converted recursively (allocating the nested result first), every other
value is copied unchanged. -/
def recTotsecEntries : Nat → Heap → HEntries → Option (Heap × HEntries)
  | _, h, [] => some (h, [])
  | fuel, h, (k, HVal.td t) :: rest =>
    match recTotsecEntries fuel h rest with
    | none => none
    | some (h', rest') => some (h', (k, HVal.float t.totsecDec) :: rest')
  | fuel, h, (k, HVal.ref a) :: rest =>
    match recTotsecH fuel h a with
    | none => none
    | some (h', a') =>
      match recTotsecEntries fuel h' rest with
      | none => none
      | some (h'', rest') => some (h'', (k, HVal.ref a') :: rest')
  | fuel, h, (k, HVal.int n) :: rest =>
    match recTotsecEntries fuel h rest with
    | none => none
    | some (h', rest') => some (h', (k, HVal.int n) :: rest')
  | fuel, h, (k, HVal.float q) :: rest =>
    match recTotsecEntries fuel h rest with
    | none => none
    | some (h', rest') => some (h', (k, HVal.float q) :: rest')
  | fuel, h, (k, HVal.nan) :: rest =>
    match recTotsecEntries fuel h rest with
    | none => none
    | some (h', rest') => some (h', (k, HVal.nan) :: rest')
  | fuel, h, (k, HVal.str s) :: rest =>
    match recTotsecEntries fuel h rest with
    | none => none
    | some (h', rest') => some (h', (k, HVal.str s) :: rest')
  termination_by fuel _ es => (fuel, es.length + 1)
end

mutual
/-- The dict conversion only appends cells to the heap. -/
theorem recTotsecH_extends : (fuel : Nat) → ∀ (h : Heap) (a : Nat) (h' : Heap) (a' : Nat),
    recTotsecH fuel h a = some (h', a') →
      (∃ s, h'.cells = h.cells ++ s) ∧ h.cells.length ≤ a'
  | 0, h, a, h', a', hr => by
    simp only [recTotsecH] at hr
    cases hr
  | fuel + 1, h, a, h', a', hr => by
    simp only [recTotsecH] at hr
    split at hr
    · cases hr
    · rename_i es hes
      split at hr
      · cases hr
      · rename_i h1 es' hrec
        rw [Heap.alloc] at hr
        cases hr
        obtain ⟨s, hs⟩ := recTotsecEntries_extends fuel h es _ _ hrec
        refine ⟨⟨s ++ [es'], by simp [hs]⟩, by simp [hs]⟩
  termination_by fuel => (fuel, 0)

/-- The entries pass only appends cells to the heap. -/
theorem recTotsecEntries_extends : (fuel : Nat) → ∀ (h : Heap) (es : HEntries)
    (h' : Heap) (es' : HEntries),
    recTotsecEntries fuel h es = some (h', es') → ∃ s, h'.cells = h.cells ++ s
  | fuel, h, [], h', es', hr => by
    simp only [recTotsecEntries] at hr
    cases hr
    exact ⟨[], by simp⟩
  | fuel, h, (k, HVal.td t) :: rest, h', es', hr => by
    simp only [recTotsecEntries] at hr
    split at hr
    · cases hr
    · rename_i h1 rest' hrec
      cases hr
      exact recTotsecEntries_extends fuel h rest _ _ hrec
  | fuel, h, (k, HVal.ref a) :: rest, h', es', hr => by
    simp only [recTotsecEntries] at hr
    split at hr
    · cases hr
    · rename_i h1 a1 hrec
      split at hr
      · cases hr
      · rename_i h2 rest' hrec2
        cases hr
        obtain ⟨⟨s1, hs1⟩, _⟩ := recTotsecH_extends fuel h a _ _ hrec
        obtain ⟨s2, hs2⟩ := recTotsecEntries_extends fuel _ rest _ _ hrec2
        exact ⟨s1 ++ s2, by simp [hs2, hs1]⟩
  | fuel, h, (k, HVal.int n) :: rest, h', es', hr => by
    simp only [recTotsecEntries] at hr
    split at hr
    · cases hr
    · rename_i h1 rest' hrec
      cases hr
      exact recTotsecEntries_extends fuel h rest _ _ hrec
  | fuel, h, (k, HVal.float q) :: rest, h', es', hr => by
    simp only [recTotsecEntries] at hr
    split at hr
    · cases hr
    · rename_i h1 rest' hrec
      cases hr
      exact recTotsecEntries_extends fuel h rest _ _ hrec
  | fuel, h, (k, HVal.nan) :: rest, h', es', hr => by
    simp only [recTotsecEntries] at hr
    split at hr
    · cases hr
    · rename_i h1 rest' hrec
      cases hr
      exact recTotsecEntries_extends fuel h rest _ _ hrec
  | fuel, h, (k, HVal.str s) :: rest, h', es', hr => by
    simp only [recTotsecEntries] at hr
    split at hr
    · cases hr
    · rename_i h1 rest' hrec
      cases hr
      exact recTotsecEntries_extends fuel h rest _ _ hrec
  termination_by fuel _ es => (fuel, es.length + 1)
end

/-- C10: `recursive_timedelta_to_totsec` never mutates its argument: in the
reference-semantics model it only allocates, so after a successful call
every address that existed before — the argument dict and every dict nested
in it, at every level — still holds exactly the same entries, and the
returned dict lives at a fresh address that did not exist before the
call. -/
theorem recTotsecH_no_mutation (fuel : Nat) (h : Heap) (a : Nat) (h' : Heap) (a' : Nat)
    (hr : recTotsecH fuel h a = some (h', a')) :
    (∀ b, b < h.cells.length → h'.lookup b = h.lookup b) ∧ h.cells.length ≤ a' := by
  obtain ⟨⟨s, hs⟩, hf⟩ := recTotsecH_extends fuel h a h' a' hr
  refine ⟨?_, hf⟩
  intro b hb
  show h'.cells[b]? = h.cells[b]?
  rw [hs]
  exact List.getElem?_append_left hb

def c10Heap : Heap :=
  ⟨[[(PyKey.s ['a'], HVal.td ⟨1000000⟩), (PyKey.s ['b'], HVal.ref 1)],
    [(PyKey.s ['c'], HVal.int 3)]]⟩

def c10HeapAfter : Heap :=
  ⟨[[(PyKey.s ['a'], HVal.td ⟨1000000⟩), (PyKey.s ['b'], HVal.ref 1)],
    [(PyKey.s ['c'], HVal.int 3)],
    [(PyKey.s ['c'], HVal.int 3)],
    [(PyKey.s ['a'], HVal.float ⟨1000000, 6⟩), (PyKey.s ['b'], HVal.ref 2)]]⟩

theorem recTotsecH_no_mutation_witness :
    recTotsecH 3 c10Heap 0 = some (c10HeapAfter, 3) ∧
      ((∀ b, b < c10Heap.cells.length → c10HeapAfter.lookup b = c10Heap.lookup b) ∧
        c10Heap.cells.length ≤ 3) := by
  have hcomp : recTotsecH 3 c10Heap 0 = some (c10HeapAfter, 3) := by
    simp [recTotsecH, recTotsecEntries, Heap.lookup, Heap.alloc, c10Heap, c10HeapAfter,
      Timedelta.totsecDec]
  exact ⟨hcomp, recTotsecH_no_mutation 3 c10Heap 0 c10HeapAfter 3 hcomp⟩

end BenchFastq
